import Mathlib

/-!
Verification of the `pulumi-test` provisioner.

The repository contains three variants of a small Pulumi program that
provisions a Linux VM over SSH.  The primary program (the first program in
`main.go`) defines the distro command builders `installCmd`, `updateCmd`,
`extraPackagesForDistro`, and two executors `runOrderedCommands` and
`runIndependentCommands`.  The second program in `main.go` and the program
in `src/unnamed/part_000` are older variants with slightly different
command literals and error handling; where a claim cites them we embed the
relevant part as well (suffix `_v2`, or `runBaseCommandsLoop` for the
inlined chain loop of the unnamed variant).

The Pulumi SDK is external.  We model resource registration
(`remote.NewCommand`) as appending a `Submission` record to a list, the
registration environment as a function `env : Nat -> Option String` giving,
for the k-th registration attempt of the run, `none` on success and
`some msg` when the SDK fails with message `msg`, and a resource handle as
the index of its submission in the list.  Connection data does not affect
any claim and is not recorded in submissions.
-/

/-- A named shell command, the element of the Go anonymous
`struct { name string; cmd string }` lists. -/
structure CommandSpec where
  name : String
  cmd : String
deriving Repr, DecidableEq

/-- One registered remote command resource: the arguments the program passes
to `remote.NewCommand`.  `dependsOn` lists the resource handles (indices)
given through `pulumi.DependsOn`; `triggers` is the `Triggers` array. -/
structure Submission where
  name : String
  create : String
  triggers : List String
  dependsOn : List Nat
deriving Repr, DecidableEq

/-- Model of `remote.NewCommand`: the environment `env` decides whether the
next registration (numbered by the current submission count) fails; on
success the submission is appended and its index is returned as the
resource handle. -/
def newCommand (env : Nat → Option String) (st : List Submission)
    (name create : String) (triggers : List String) (deps : List Nat) :
    Except String (List Submission × Nat) :=
  match env st.length with
  | some e => .error e
  | none => .ok (st ++ [⟨name, create, triggers, deps⟩], st.length)

/-- Package list constant `commonPackages` of the primary program. -/
def commonPackages : String :=
  "bpftrace clang cmake curl gcc gdb git less llvm man-db mold pkgconf sysstat zsh"

/-- Package list constant `cargoPackages` of the primary program. -/
def cargoPackages : String := "bat csvlens hexyl hyperfine xsv"

/-- `installCmd` of the primary program (`main.go`, first program): switch on
the distribution string. -/
def installCmd (distribution : String) : Except String String :=
  if distribution = "fedora" then .ok "sudo dnf install -y"
  else if distribution = "ubuntu" ∨ distribution = "debian" then
    .ok "sudo apt-get install -y"
  else .error ("unsupported distribution: " ++ distribution)

/-- `updateCmd` of the primary program. -/
def updateCmd (distribution : String) : Except String String :=
  if distribution = "fedora" then .ok "sudo dnf update -y"
  else if distribution = "ubuntu" ∨ distribution = "debian" then
    .ok "sudo apt-get update && sudo apt-get dist-upgrade -y"
  else .error ("unsupported distribution: " ++ distribution)

/-- `extraPackagesForDistro` of the primary program.  Note: it returns `[]`
for an unsupported distribution, it has no error result. -/
def extraPackagesForDistro (distribution : String) : List String :=
  if distribution = "fedora" then
    ["fedora-packager", "fedora-review", "gcc-c++", "ninja", "perf"]
  else if distribution = "ubuntu" ∨ distribution = "debian" then
    ["g++", "linux-tools-virtual", "ninja-build"]
  else []

/-- `installCmd` of the two variant programs (second program of `main.go`
and `src/unnamed/part_000`, which agree): no `sudo` prefix. -/
def installCmd_v2 (distribution : String) : Except String String :=
  if distribution = "fedora" then .ok "dnf install -y"
  else if distribution = "ubuntu" ∨ distribution = "debian" then
    .ok "apt-get install -y"
  else .error ("unsupported distribution: " ++ distribution)

/-- `updateCmd` of the two variant programs (which agree). -/
def updateCmd_v2 (distribution : String) : Except String String :=
  if distribution = "fedora" then .ok "sudo dnf update -y"
  else if distribution = "ubuntu" ∨ distribution = "debian" then
    .ok "sudo bash -c \"apt-get update && apt-get dist-upgrade -y\""
  else .error ("unsupported distribution: " ++ distribution)

/-- `extraPackagesForDistro` of `src/unnamed/part_000`: only fedora has
extra packages, every other string (including ubuntu and debian) gets
`nil`. -/
def extraPackagesForDistro_v2 (distribution : String) : List String :=
  if distribution = "fedora" then ["fedora-packager", "fedora-review"]
  else []

/-- The command-table builder as the primary program composes it (`main`,
lines 111-121): `installCmd`, then `updateCmd`, each aborting on error,
then the infallible `extraPackagesForDistro`. -/
def commandTable (distribution : String) :
    Except String (String × String × List String) :=
  match installCmd distribution with
  | .error e => .error e
  | .ok i =>
    match updateCmd distribution with
    | .error e => .error e
    | .ok u => .ok (i, u, extraPackagesForDistro distribution)

/-- `runOrderedCommands` of the primary program: each command is registered
with `Triggers = [cmd]` and `DependsOn = [lastResource]`, the new resource
becomes the anchor for the next iteration, and a registration failure is
wrapped with the command text and returned.  The `ok` value carries the
final value of the Go local `lastResource` (which the Go caller discards). -/
def runOrderedCommands (env : Nat → Option String) (st : List Submission)
    (anchor : Nat) : List CommandSpec → List Submission × Except String Nat
  | [] => (st, .ok anchor)
  | c :: rest =>
    match newCommand env st c.name c.cmd [c.cmd] [anchor] with
    | .error e =>
      (st, .error ("failed to run command \x27" ++ c.cmd ++ "\x27: " ++ e))
    | .ok (st2, r) => runOrderedCommands env st2 r rest

/-- `runIndependentCommands` of the primary program: each command is
registered with `Triggers = [cmd]` and no `DependsOn` option; the first
registration failure is wrapped with the command text and returned. -/
def runIndependentCommands (env : Nat → Option String) (st : List Submission) :
    List CommandSpec → List Submission × Except String Unit
  | [] => (st, .ok ())
  | c :: rest =>
    match newCommand env st c.name c.cmd [c.cmd] [] with
    | .error e =>
      (st, .error ("failed to run command \x27" ++ c.cmd ++ "\x27: " ++ e))
    | .ok (st2, _) => runIndependentCommands env st2 rest

/-- The inlined ordered-chain loop of `src/unnamed/part_000` (`main`, lines
100-121): the first command has no dependency (`lastResource` starts nil),
and a registration failure is only printed, the loop returning Go `nil`,
i.e. success. -/
def runBaseCommandsLoop (env : Nat → Option String) (st : List Submission)
    (last : Option Nat) : List CommandSpec → List Submission × Except String Unit
  | [] => (st, .ok ())
  | c :: rest =>
    let deps := match last with
      | none => ([] : List Nat)
      | some r => [r]
    match newCommand env st c.name c.cmd [c.cmd] deps with
    | .error _ => (st, .ok ())
    | .ok (st2, r) => runBaseCommandsLoop env st2 (some r) rest

/-- The `setup_commands` list of the primary program's `main`, as a function
of the install command string and the extra-package list. -/
def setup_commands (install : String) (extras : List String) : List CommandSpec :=
  [⟨"install-packages",
    install ++ " " ++ commonPackages ++ " " ++ String.intercalate " " extras⟩,
   ⟨"install-cargo",
    "rm -rf ~/.cargo ~/.rustup && curl -LsSf https://sh.rustup.rs | sh -s -- -y --no-modify-path"⟩,
   ⟨"install-cargo-packages", "~/.cargo/bin/cargo install " ++ cargoPackages⟩,
   ⟨"setup-config",
    "rm -rf ~/github/config && git clone https://github.com/ismail/config.git ~/github/config && ~/github/config/setup.sh"⟩,
   ⟨"setup-hacks",
    "rm -rf ~/github/hacks && git clone https://github.com/ismail/hacks.git ~/github/hacks && ~/github/hacks/setup.sh"⟩,
   ⟨"set-zlogin",
    "echo \x27path+=(~/.local/bin ~/.cargo/bin $path)\n\neval \"$(starship init zsh)\"\x27 > ~/.zlogin"⟩,
   ⟨"use-zsh", "sudo chsh -s /bin/zsh ismail"⟩]

/-- The `extra_commands` list of the primary program's `main`. -/
def extra_commands : List CommandSpec :=
  [⟨"install-starship", "curl -sS https://starship.rs/install.sh | sudo sh -s -- -y"⟩,
   ⟨"install-uv", "curl -LsSf https://astral.sh/uv/install.sh | UV_NO_MODIFY_PATH=1 sh"⟩,
   ⟨"starship-disable-container",
    "mkdir -p ~/.config && echo \"[container]\ndisabled = true\" > ~/.config/starship.toml"⟩]

/-- The primary program's `main` closure: read the key, build the command
strings (aborting with a wrapped error on any failure), register the
`update-system` command with the current timestamp `now` as its trigger,
then run the ordered chain anchored on it and the independent set.
`keyRead` models `os.ReadFile` on the private-key path and `now` models
`time.Now().Format(time.RFC3339)`; `sshUsername` only feeds the connection,
which no claim observes. -/
def mainProgram (distribution sshUsername : String)
    (keyRead : Except String String) (now : String)
    (env : Nat → Option String) : List Submission × Except String Unit :=
  match keyRead with
  | .error e => ([], .error ("failed to read private key: " ++ e))
  | .ok _key =>
    match installCmd distribution with
    | .error e => ([], .error ("failed to get install command: " ++ e))
    | .ok install =>
      match updateCmd distribution with
      | .error e => ([], .error ("failed to get update command: " ++ e))
      | .ok update =>
        let extras := extraPackagesForDistro distribution
        match newCommand env [] "update-system" update [now] [] with
        | .error e => ([], .error ("failed to update the system: " ++ e))
        | .ok (st, base) =>
          match runOrderedCommands env st base (setup_commands install extras) with
          | (st2, .error e) => (st2, .error e)
          | (st2, .ok _) =>
            match runIndependentCommands env st2 extra_commands with
            | (st3, .error e) => (st3, .error e)
            | (st3, .ok _) => (st3, .ok ())

example :
    runOrderedCommands (fun _ => none) [] 0 [⟨"a", "x"⟩, ⟨"b", "y"⟩] =
      ([⟨"a", "x", ["x"], [0]⟩, ⟨"b", "y", ["y"], [0]⟩], .ok 1) := rfl

example :
    runIndependentCommands (fun _ => none) [] [⟨"a", "x"⟩, ⟨"b", "y"⟩] =
      ([⟨"a", "x", ["x"], []⟩, ⟨"b", "y", ["y"], []⟩], .ok ()) := rfl

/-- Shape of the submissions the ordered executor appends: `n0` is the index
the next submission will get and `a` the current anchor, so the head depends
on `a` and each later one on its predecessor's index. -/
def chainSubs (n0 a : Nat) : List CommandSpec → List Submission
  | [] => []
  | c :: rest => ⟨c.name, c.cmd, [c.cmd], [a]⟩ :: chainSubs (n0 + 1) n0 rest

/-- Final value of the ordered executor's anchor after a successful run. -/
def chainAnchor (n0 a : Nat) : List CommandSpec → Nat
  | [] => a
  | _ :: rest => chainAnchor (n0 + 1) n0 rest

/-- Shape of the submissions the independent executor appends. -/
def indepSubs (cs : List CommandSpec) : List Submission :=
  cs.map fun c => ⟨c.name, c.cmd, [c.cmd], []⟩

theorem chainSubs_length (n0 a : Nat) (cs : List CommandSpec) :
    (chainSubs n0 a cs).length = cs.length := by
  induction cs generalizing n0 a with
  | nil => rfl
  | cons c rest ih => simp [chainSubs, ih]

theorem chainSubs_get? (cs : List CommandSpec) (n0 a i : Nat) (c : CommandSpec)
    (hc : cs.get? i = some c) :
    (chainSubs n0 a cs).get? i =
      some ⟨c.name, c.cmd, [c.cmd], [if i = 0 then a else n0 + i - 1]⟩ := by
  induction cs generalizing n0 a i with
  | nil => simp at hc
  | cons c0 rest ih =>
    cases i with
    | zero =>
      simp only [List.get?] at hc
      cases hc
      rfl
    | succ j =>
      simp only [List.get?] at hc
      have h := ih (n0 + 1) n0 j hc
      simp only [chainSubs, List.get?, h]
      congr 2
      cases j with
      | zero => simp
      | succ j2 => simp; omega

theorem runOrderedCommands_ok (env : Nat → Option String)
    (cs : List CommandSpec) (st : List Submission) (anchor : Nat)
    (henv : ∀ i, i < cs.length → env (st.length + i) = none) :
    runOrderedCommands env st anchor cs =
      (st ++ chainSubs st.length anchor cs,
       .ok (chainAnchor st.length anchor cs)) := by
  induction cs generalizing st anchor with
  | nil => simp [runOrderedCommands, chainSubs, chainAnchor]
  | cons c rest ih =>
    have h0 : env st.length = none := by simpa using henv 0 (Nat.succ_pos _)
    simp only [runOrderedCommands, newCommand, h0]
    have hrec : ∀ i, i < rest.length →
        env ((st ++ [(⟨c.name, c.cmd, [c.cmd], [anchor]⟩ : Submission)]).length + i)
          = none := by
      intro i hi
      have h1 := henv (i + 1) (Nat.succ_lt_succ hi)
      have h2 : (st ++ [(⟨c.name, c.cmd, [c.cmd], [anchor]⟩ : Submission)]).length + i
          = st.length + (i + 1) := by
        simp only [List.length_append, List.length_singleton]
        omega
      rw [h2]
      exact h1
    rw [ih _ st.length hrec]
    simp [chainSubs, chainAnchor]

theorem runIndependentCommands_ok (env : Nat → Option String)
    (henv : ∀ j, env j = none) (cs : List CommandSpec)
    (st : List Submission) :
    runIndependentCommands env st cs = (st ++ indepSubs cs, .ok ()) := by
  induction cs generalizing st with
  | nil => simp [runIndependentCommands, indepSubs]
  | cons c rest ih =>
    simp only [runIndependentCommands, newCommand, henv st.length]
    rw [ih]
    simp [indepSubs]

theorem runOrderedCommands_fail (env : Nat → Option String)
    (cs : List CommandSpec) (st : List Submission) (anchor k : Nat)
    (c : CommandSpec) (e : String) (hc : cs.get? k = some c)
    (hfail : env (st.length + k) = some e)
    (hok : ∀ j, j < k → env (st.length + j) = none) :
    runOrderedCommands env st anchor cs =
      (st ++ chainSubs st.length anchor (cs.take k),
       .error ("failed to run command \x27" ++ c.cmd ++ "\x27: " ++ e)) := by
  induction cs generalizing st anchor k with
  | nil => simp at hc
  | cons c0 rest ih =>
    cases k with
    | zero =>
      simp only [List.get?] at hc
      cases hc
      have h0 : env st.length = some e := by simpa using hfail
      simp [runOrderedCommands, newCommand, h0, chainSubs]
    | succ j =>
      have h0 : env st.length = none := by
        have := hok 0 (Nat.succ_pos j)
        simpa using this
      simp only [List.get?] at hc
      simp only [runOrderedCommands, newCommand, h0]
      have hlen : (st ++ [(⟨c0.name, c0.cmd, [c0.cmd], [anchor]⟩ : Submission)]).length
          = st.length + 1 := by simp
      have hfail2 : env ((st ++ [(⟨c0.name, c0.cmd, [c0.cmd], [anchor]⟩ : Submission)]).length + j)
          = some e := by
        rw [hlen]
        have : st.length + 1 + j = st.length + (j + 1) := by omega
        rw [this]
        exact hfail
      have hok2 : ∀ j2, j2 < j →
          env ((st ++ [(⟨c0.name, c0.cmd, [c0.cmd], [anchor]⟩ : Submission)]).length + j2)
            = none := by
        intro j2 hj2
        rw [hlen]
        have : st.length + 1 + j2 = st.length + (j2 + 1) := by omega
        rw [this]
        exact hok (j2 + 1) (by omega)
      rw [ih _ st.length j hc hfail2 hok2]
      simp [chainSubs, List.take]

theorem runIndependentCommands_fail (env : Nat → Option String)
    (cs : List CommandSpec) (st : List Submission) (k : Nat)
    (c : CommandSpec) (e : String) (hc : cs.get? k = some c)
    (hfail : env (st.length + k) = some e)
    (hok : ∀ j, j < k → env (st.length + j) = none) :
    runIndependentCommands env st cs =
      (st ++ indepSubs (cs.take k),
       .error ("failed to run command \x27" ++ c.cmd ++ "\x27: " ++ e)) := by
  induction cs generalizing st k with
  | nil => simp at hc
  | cons c0 rest ih =>
    cases k with
    | zero =>
      simp only [List.get?] at hc
      cases hc
      have h0 : env st.length = some e := by simpa using hfail
      simp [runIndependentCommands, newCommand, h0, indepSubs]
    | succ j =>
      have h0 : env st.length = none := by
        have := hok 0 (Nat.succ_pos j)
        simpa using this
      simp only [List.get?] at hc
      simp only [runIndependentCommands, newCommand, h0]
      have hlen : (st ++ [(⟨c0.name, c0.cmd, [c0.cmd], []⟩ : Submission)]).length
          = st.length + 1 := by simp
      have hfail2 : env ((st ++ [(⟨c0.name, c0.cmd, [c0.cmd], []⟩ : Submission)]).length + j)
          = some e := by
        rw [hlen]
        have : st.length + 1 + j = st.length + (j + 1) := by omega
        rw [this]
        exact hfail
      have hok2 : ∀ j2, j2 < j →
          env ((st ++ [(⟨c0.name, c0.cmd, [c0.cmd], []⟩ : Submission)]).length + j2)
            = none := by
        intro j2 hj2
        rw [hlen]
        have : st.length + 1 + j2 = st.length + (j2 + 1) := by omega
        rw [this]
        exact hok (j2 + 1) (by omega)
      rw [ih _ j hc hfail2 hok2]
      simp [indepSubs, List.take]

theorem runOrderedCommands_mem (env : Nat → Option String)
    (cs : List CommandSpec) (st : List Submission) (anchor : Nat)
    (s : Submission) (hs : s ∈ (runOrderedCommands env st anchor cs).1) :
    s ∈ st ∨ s.triggers = [s.create] := by
  induction cs generalizing st anchor with
  | nil => exact Or.inl hs
  | cons c rest ih =>
    simp only [runOrderedCommands, newCommand] at hs
    cases henv : env st.length with
    | some e =>
      rw [henv] at hs
      exact Or.inl hs
    | none =>
      rw [henv] at hs
      rcases ih _ st.length hs with h | h
      · rcases List.mem_append.mp h with h2 | h2
        · exact Or.inl h2
        · right
          rcases List.mem_singleton.mp h2 with rfl
          rfl
      · exact Or.inr h

theorem runIndependentCommands_mem (env : Nat → Option String)
    (cs : List CommandSpec) (st : List Submission)
    (s : Submission) (hs : s ∈ (runIndependentCommands env st cs).1) :
    s ∈ st ∨ s.triggers = [s.create] := by
  induction cs generalizing st with
  | nil => exact Or.inl hs
  | cons c rest ih =>
    simp only [runIndependentCommands, newCommand] at hs
    cases henv : env st.length with
    | some e =>
      rw [henv] at hs
      exact Or.inl hs
    | none =>
      rw [henv] at hs
      rcases ih _ hs with h | h
      · rcases List.mem_append.mp h with h2 | h2
        · exact Or.inl h2
        · right
          rcases List.mem_singleton.mp h2 with rfl
          rfl
      · exact Or.inr h

/-- C1: for every non-empty (indeed every) command list and every initial
anchor, a failure-free run of `runOrderedCommands` registers the commands
in list order as N new submissions, the i-th placed at index
`st.length + i` and declaring a dependency on exactly the resource handle
returned by the (i-1)-th submission (the first on the given anchor). -/
theorem runOrderedCommands_chain_links (env : Nat → Option String)
    (st : List Submission) (anchor : Nat) (cs : List CommandSpec)
    (henv : ∀ j, env j = none) :
    (∃ a, (runOrderedCommands env st anchor cs).2 = .ok a) ∧
    (runOrderedCommands env st anchor cs).1.length = st.length + cs.length ∧
    (∀ i, i < st.length →
      (runOrderedCommands env st anchor cs).1.get? i = st.get? i) ∧
    ∀ i c, cs.get? i = some c →
      (runOrderedCommands env st anchor cs).1.get? (st.length + i) =
        some ⟨c.name, c.cmd, [c.cmd],
              [if i = 0 then anchor else st.length + i - 1]⟩ := by
  rw [runOrderedCommands_ok env cs st anchor (fun i _ => henv _)]
  refine ⟨⟨_, rfl⟩, by simp [chainSubs_length], ?_, ?_⟩
  · intro i hi
    exact List.get?_append hi
  · intro i c hc
    rw [List.get?_append_right (Nat.le_add_right _ _)]
    rw [Nat.add_sub_cancel_left]
    exact chainSubs_get? cs st.length anchor i c hc

theorem runOrderedCommands_chain_links_witness :
    (runOrderedCommands (fun _ => none) [] 5 [⟨"a", "x"⟩, ⟨"b", "y"⟩]).1.get? 1 =
      some ⟨"b", "y", ["y"], [0]⟩ := by
  have h := runOrderedCommands_chain_links (fun _ => none) [] 5
      [⟨"a", "x"⟩, ⟨"b", "y"⟩] (fun j => rfl)
  simpa using h.2.2.2 1 ⟨"b", "y"⟩ rfl

/-- C2: if in `runOrderedCommands` the registration of the command at
position k fails (all earlier ones succeeding), then exactly the first k
commands were submitted — none at positions k+1..N — and the executor
returns the error wrapped with the failing command's text. -/
theorem runOrderedCommands_stops_on_failure (env : Nat → Option String)
    (cs : List CommandSpec) (st : List Submission) (anchor k : Nat)
    (c : CommandSpec) (e : String) (hc : cs.get? k = some c)
    (hfail : env (st.length + k) = some e)
    (hok : ∀ j, j < k → env (st.length + j) = none) :
    runOrderedCommands env st anchor cs =
      (st ++ chainSubs st.length anchor (cs.take k),
       .error ("failed to run command \x27" ++ c.cmd ++ "\x27: " ++ e)) ∧
    (runOrderedCommands env st anchor cs).1.length = st.length + k := by
  have h := runOrderedCommands_fail env cs st anchor k c e hc hfail hok
  refine ⟨h, ?_⟩
  rw [h]
  have hk : k < cs.length := by
    rcases List.get?_eq_some.mp hc with ⟨hlt, _⟩
    exact hlt
  simp [chainSubs_length, List.length_take]
  omega

theorem runOrderedCommands_stops_on_failure_witness :
    runOrderedCommands (fun j => if j = 1 then some "boom" else none) [] 7
        [⟨"a", "x"⟩, ⟨"b", "y"⟩, ⟨"c", "z"⟩] =
      ([⟨"a", "x", ["x"], [7]⟩],
       .error ("failed to run command \x27y\x27: boom")) := by
  have h := runOrderedCommands_stops_on_failure
      (fun j => if j = 1 then some "boom" else none)
      [⟨"a", "x"⟩, ⟨"b", "y"⟩, ⟨"c", "z"⟩] [] 7 1 ⟨"b", "y"⟩ "boom" rfl rfl
      (fun j hj => by interval_cases j; rfl)
  rw [h.1]
  rfl

/-- C5: a failure-free run of `runIndependentCommands` registers all N
commands, and no registered submission declares a dependency on anything:
every `dependsOn` list is empty. -/
theorem runIndependentCommands_no_deps (env : Nat → Option String)
    (st : List Submission) (cs : List CommandSpec)
    (henv : ∀ j, env j = none) :
    (runIndependentCommands env st cs).2 = .ok () ∧
    (runIndependentCommands env st cs).1.length = st.length + cs.length ∧
    (∀ i c, cs.get? i = some c →
      (runIndependentCommands env st cs).1.get? (st.length + i) =
        some ⟨c.name, c.cmd, [c.cmd], []⟩) ∧
    ∀ s ∈ (runIndependentCommands env st cs).1, s ∈ st ∨ s.dependsOn = [] := by
  rw [runIndependentCommands_ok env henv]
  refine ⟨rfl, by simp [indepSubs], ?_, ?_⟩
  · intro i c hc
    rw [List.get?_append_right (Nat.le_add_right _ _)]
    rw [Nat.add_sub_cancel_left]
    simp only [indepSubs, List.get?_map, hc]
    rfl
  · intro s hs
    rcases List.mem_append.mp hs with h | h
    · exact Or.inl h
    · right
      rcases List.mem_map.mp h with ⟨c, _, rfl⟩
      rfl

theorem runIndependentCommands_no_deps_witness :
    (runIndependentCommands (fun _ => none) [] [⟨"a", "x"⟩, ⟨"b", "y"⟩]).1.get? 1 =
      some ⟨"b", "y", ["y"], []⟩ := by
  have h := runIndependentCommands_no_deps (fun _ => none) []
      [⟨"a", "x"⟩, ⟨"b", "y"⟩] (fun j => rfl)
  simpa using h.2.2.1 1 ⟨"b", "y"⟩ rfl

/-- C7: if in `runIndependentCommands` the registration of the command at
position k fails (all earlier ones succeeding), the executor stops —
exactly the first k commands were submitted — and returns the first error
wrapped with the failing command's text. -/
theorem runIndependentCommands_stops_on_failure (env : Nat → Option String)
    (cs : List CommandSpec) (st : List Submission) (k : Nat)
    (c : CommandSpec) (e : String) (hc : cs.get? k = some c)
    (hfail : env (st.length + k) = some e)
    (hok : ∀ j, j < k → env (st.length + j) = none) :
    runIndependentCommands env st cs =
      (st ++ indepSubs (cs.take k),
       .error ("failed to run command \x27" ++ c.cmd ++ "\x27: " ++ e)) ∧
    (runIndependentCommands env st cs).1.length = st.length + k := by
  have h := runIndependentCommands_fail env cs st k c e hc hfail hok
  refine ⟨h, ?_⟩
  rw [h]
  have hk : k < cs.length := by
    rcases List.get?_eq_some.mp hc with ⟨hlt, _⟩
    exact hlt
  simp [indepSubs, List.length_take]
  omega

theorem runIndependentCommands_stops_on_failure_witness :
    runIndependentCommands (fun j => if j = 1 then some "boom" else none) []
        [⟨"a", "x"⟩, ⟨"b", "y"⟩, ⟨"c", "z"⟩] =
      ([⟨"a", "x", ["x"], []⟩],
       .error ("failed to run command \x27y\x27: boom")) := by
  have h := runIndependentCommands_stops_on_failure
      (fun j => if j = 1 then some "boom" else none)
      [⟨"a", "x"⟩, ⟨"b", "y"⟩, ⟨"c", "z"⟩] [] 1 ⟨"b", "y"⟩ "boom" rfl rfl
      (fun j hj => by interval_cases j; rfl)
  rw [h.1]
  rfl

/-- C10: on the empty command list both executors register nothing and
return success, and the ordered executor's final anchor (the Go local
`lastResource`) is still the initial anchor it was given. -/
theorem executors_empty_noop (env : Nat → Option String)
    (st : List Submission) (anchor : Nat) :
    runOrderedCommands env st anchor [] = (st, .ok anchor) ∧
    runIndependentCommands env st [] = (st, .ok ()) :=
  ⟨rfl, rfl⟩

/-- C3: `installCmd` and `updateCmd` (in both their variants across the
repository) return the expected literal package-manager invocation for
each of "fedora", "ubuntu" and "debian", and an unsupported-distribution
error for every other input string. -/
theorem installCmd_updateCmd_spec :
    installCmd "fedora" = .ok "sudo dnf install -y" ∧
    installCmd "ubuntu" = .ok "sudo apt-get install -y" ∧
    installCmd "debian" = .ok "sudo apt-get install -y" ∧
    updateCmd "fedora" = .ok "sudo dnf update -y" ∧
    updateCmd "ubuntu" = .ok "sudo apt-get update && sudo apt-get dist-upgrade -y" ∧
    updateCmd "debian" = .ok "sudo apt-get update && sudo apt-get dist-upgrade -y" ∧
    installCmd_v2 "fedora" = .ok "dnf install -y" ∧
    installCmd_v2 "ubuntu" = .ok "apt-get install -y" ∧
    installCmd_v2 "debian" = .ok "apt-get install -y" ∧
    updateCmd_v2 "fedora" = .ok "sudo dnf update -y" ∧
    updateCmd_v2 "ubuntu" = .ok "sudo bash -c \"apt-get update && apt-get dist-upgrade -y\"" ∧
    updateCmd_v2 "debian" = .ok "sudo bash -c \"apt-get update && apt-get dist-upgrade -y\"" ∧
    ∀ d, d ≠ "fedora" → d ≠ "ubuntu" → d ≠ "debian" →
      installCmd d = .error ("unsupported distribution: " ++ d) ∧
      updateCmd d = .error ("unsupported distribution: " ++ d) ∧
      installCmd_v2 d = .error ("unsupported distribution: " ++ d) ∧
      updateCmd_v2 d = .error ("unsupported distribution: " ++ d) := by
  refine ⟨rfl, rfl, rfl, rfl, rfl, rfl, rfl, rfl, rfl, rfl, rfl, rfl, ?_⟩
  intro d h1 h2 h3
  exact ⟨by simp [installCmd, h1, h2, h3], by simp [updateCmd, h1, h2, h3],
         by simp [installCmd_v2, h1, h2, h3], by simp [updateCmd_v2, h1, h2, h3]⟩

theorem installCmd_updateCmd_spec_witness :
    installCmd "arch" = .error ("unsupported distribution: " ++ "arch") :=
  (installCmd_updateCmd_spec.2.2.2.2.2.2.2.2.2.2.2.2 "arch"
    (by decide) (by decide) (by decide)).1

/-- C4: the command-table builder, composed as the primary program's `main`
composes `installCmd`, `updateCmd` and the extra-packages lookup
`extraPackagesForDistro`, fails with an unsupported-distribution error for
every distribution identifier outside {"fedora", "ubuntu", "debian"}. -/
theorem commandTable_unsupported (d : String)
    (h1 : d ≠ "fedora") (h2 : d ≠ "ubuntu") (h3 : d ≠ "debian") :
    commandTable d = .error ("unsupported distribution: " ++ d) := by
  simp [commandTable, installCmd, h1, h2, h3]

theorem commandTable_unsupported_witness :
    commandTable "arch" = .error ("unsupported distribution: " ++ "arch") :=
  commandTable_unsupported "arch" (by decide) (by decide) (by decide)

theorem commandTable_ok_elim (d i u : String) (ex : List String)
    (h : commandTable d = .ok (i, u, ex)) :
    installCmd d = .ok i ∧ updateCmd d = .ok u ∧ extraPackagesForDistro d = ex := by
  unfold commandTable at h
  cases hi : installCmd d with
  | error e => rw [hi] at h; simp at h
  | ok i0 =>
    rw [hi] at h
    cases hu : updateCmd d with
    | error e => rw [hu] at h; simp at h
    | ok u0 =>
      rw [hu] at h
      simp only [Except.ok.injEq, Prod.mk.injEq] at h
      obtain ⟨h1, h2, h3⟩ := h
      subst h1
      subst h2
      subst h3
      exact ⟨rfl, rfl, rfl⟩

/-- C6 counterexample: in the chain loop of `src/unnamed/part_000` a remote
command submission failure is not returned to the caller — the loop prints
it and returns success, so the claim that no error is swallowed or
replaced by a success result is false at this input. -/
theorem runBaseCommandsLoop_swallows_failure :
    runBaseCommandsLoop (fun _ => some "ssh failure") [] none
        [⟨"update-system", "sudo dnf update -y"⟩] = ([], .ok ()) := rfl

/-- C6 (amended): in the primary program every error is wrapped with
context and returned to the caller — the key-read error, the
unsupported-distribution error, a failing update-system registration, and
a first submission failure at any position n of the run (position n-1 of
the ordered chain followed by the independent set) — while in the variant
programs the ordered-chain loop replaces a submission failure by a success
result. -/
theorem mainProgram_error_propagation :
    (∀ d u e now env, mainProgram d u (.error e) now env =
       ([], .error ("failed to read private key: " ++ e))) ∧
    (∀ d u k now env, d ≠ "fedora" → d ≠ "ubuntu" → d ≠ "debian" →
       mainProgram d u (.ok k) now env =
         ([], .error ("failed to get install command: " ++
           ("unsupported distribution: " ++ d)))) ∧
    (∀ d u k now e env, (d = "fedora" ∨ d = "ubuntu" ∨ d = "debian") →
       env 0 = some e →
       mainProgram d u (.ok k) now env =
         ([], .error ("failed to update the system: " ++ e))) ∧
    (∀ d u k now e env n c install update extras,
       commandTable d = .ok (install, update, extras) →
       0 < n →
       (setup_commands install extras ++ extra_commands).get? (n - 1) = some c →
       env n = some e →
       (∀ j, j < n → env j = none) →
       (mainProgram d u (.ok k) now env).2 =
         .error ("failed to run command \x27" ++ c.cmd ++ "\x27: " ++ e)) ∧
    (∀ env st last c cs e, env st.length = some e →
       runBaseCommandsLoop env st last (c :: cs) = (st, .ok ())) := by
  refine ⟨fun d u e now env => rfl, ?_, ?_, ?_, ?_⟩
  · intro d u k now env h1 h2 h3
    simp [mainProgram, installCmd, h1, h2, h3]
  · intro d u k now e env hd h
    rcases hd with rfl | rfl | rfl <;>
      simp [mainProgram, newCommand, installCmd, updateCmd, h]
  · intro d u k now e env n c install update extras htable hn hget hfail hok
    obtain ⟨hinstall, hupdate, hextras⟩ :=
      commandTable_ok_elim d install update extras htable
    have h0 : env 0 = none := hok 0 hn
    have hlen : (setup_commands install extras).length = 7 := rfl
    rcases Nat.lt_or_ge (n - 1) 7 with h7 | h7
    · have hsetup : (setup_commands install extras).get? (n - 1) = some c := by
        rw [List.get?_append (by rw [hlen]; exact h7)] at hget
        exact hget
      have hfail2 : env (([(⟨"update-system", update, [now], []⟩ : Submission)]).length
          + (n - 1)) = some e := by
        simp only [List.length_singleton]
        rw [show 1 + (n - 1) = n by omega]
        exact hfail
      have hok2 : ∀ j, j < n - 1 →
          env (([(⟨"update-system", update, [now], []⟩ : Submission)]).length + j)
            = none := by
        intro j hj
        simp only [List.length_singleton]
        exact hok (1 + j) (by omega)
      have hchain := runOrderedCommands_fail env (setup_commands install extras)
          [⟨"update-system", update, [now], []⟩] 0 (n - 1) c e hsetup hfail2 hok2
      simp [mainProgram, newCommand, hinstall, hupdate, hextras, h0, hchain]
    · have hextra : extra_commands.get? (n - 8) = some c := by
        rw [List.get?_append_right (by rw [hlen]; exact h7)] at hget
        rw [hlen] at hget
        rw [show n - 8 = n - 1 - 7 by omega]
        exact hget
      have hokchain : ∀ i, i < (setup_commands install extras).length →
          env (([(⟨"update-system", update, [now], []⟩ : Submission)]).length + i)
            = none := by
        intro i hi
        rw [hlen] at hi
        simp only [List.length_singleton]
        exact hok (1 + i) (by omega)
      have hchain := runOrderedCommands_ok env (setup_commands install extras)
          [⟨"update-system", update, [now], []⟩] 0 hokchain
      have hfail2 : env (((⟨"update-system", update, [now], []⟩ : Submission) ::
          chainSubs 1 0 (setup_commands install extras)).length + (n - 8)) = some e := by
        simp only [List.length_cons, chainSubs_length, hlen]
        rw [show 7 + 1 + (n - 8) = n by omega]
        exact hfail
      have hok2 : ∀ j, j < n - 8 →
          env (((⟨"update-system", update, [now], []⟩ : Submission) ::
            chainSubs 1 0 (setup_commands install extras)).length + j) = none := by
        intro j hj
        simp only [List.length_cons, chainSubs_length, hlen]
        exact hok (7 + 1 + j) (by omega)
      have hindep := runIndependentCommands_fail env extra_commands
          ((⟨"update-system", update, [now], []⟩ : Submission) ::
            chainSubs 1 0 (setup_commands install extras)) (n - 8) c e
          hextra hfail2 hok2
      simp [mainProgram, newCommand, hinstall, hupdate, hextras, h0, hchain, hindep]
  · intro env st last c cs e h
    cases last <;> simp [runBaseCommandsLoop, newCommand, h]

theorem mainProgram_error_propagation_witness :
    (mainProgram "fedora" "ismail" (.ok "KEY") "2026-10-11T00:00:00Z"
        (fun j => if j = 9 then some "boom" else none)).2 =
      .error ("failed to run command \x27" ++
        "curl -LsSf https://astral.sh/uv/install.sh | UV_NO_MODIFY_PATH=1 sh" ++
        "\x27: " ++ "boom") := by
  have h := mainProgram_error_propagation.2.2.2.1 "fedora" "ismail" "KEY"
      "2026-10-11T00:00:00Z" "boom" (fun j => if j = 9 then some "boom" else none) 9
      ⟨"install-uv",
       "curl -LsSf https://astral.sh/uv/install.sh | UV_NO_MODIFY_PATH=1 sh"⟩
      "sudo dnf install -y" "sudo dnf update -y"
      ["fedora-packager", "fedora-review", "gcc-c++", "ninja", "perf"]
      rfl (by omega) rfl rfl (fun j hj => by interval_cases j <;> rfl)
  exact h

/-- C8: in a failure-free run of the primary program, the names of the
registered commands — the initial update-system command, the ordered chain
and the independent set — are pairwise distinct. -/
theorem mainProgram_names_nodup (d u k now : String)
    (h : d = "fedora" ∨ d = "ubuntu" ∨ d = "debian") :
    ((mainProgram d u (.ok k) now (fun _ => none)).1.map Submission.name).Nodup := by
  have hlist : ((mainProgram d u (.ok k) now (fun _ => none)).1.map Submission.name) =
      ["update-system", "install-packages", "install-cargo",
       "install-cargo-packages", "setup-config", "setup-hacks", "set-zlogin",
       "use-zsh", "install-starship", "install-uv",
       "starship-disable-container"] := by
    rcases h with rfl | rfl | rfl <;> rfl
  rw [hlist]
  decide

theorem mainProgram_names_nodup_witness :
    ((mainProgram "fedora" "ismail" (.ok "KEY") "2026-10-11T00:00:00Z"
        (fun _ => none)).1.map Submission.name).Nodup :=
  mainProgram_names_nodup "fedora" "ismail" "KEY" "2026-10-11T00:00:00Z" (Or.inl rfl)

/-- C9: every submission registered by the chain executor or the
independent-set executor (beyond the state it started from) carries its own
shell command string as its sole trigger, whereas the initial update-system
submission of the primary program carries the run's timestamp `now` as its
sole trigger. -/
theorem triggers_spec :
    (∀ env st anchor cs s, s ∈ (runOrderedCommands env st anchor cs).1 →
       s ∈ st ∨ s.triggers = [s.create]) ∧
    (∀ env st cs s, s ∈ (runIndependentCommands env st cs).1 →
       s ∈ st ∨ s.triggers = [s.create]) ∧
    (∀ d u k now, d = "fedora" ∨ d = "ubuntu" ∨ d = "debian" →
       ((mainProgram d u (.ok k) now (fun _ => none)).1.get? 0).map
           Submission.triggers = some [now]) := by
  refine ⟨?_, ?_, ?_⟩
  · intro env st anchor cs s hs
    exact runOrderedCommands_mem env cs st anchor s hs
  · intro env st cs s hs
    exact runIndependentCommands_mem env cs st s hs
  · intro d u k now h
    rcases h with rfl | rfl | rfl <;> rfl

theorem triggers_spec_witness :
    ((mainProgram "ubuntu" "ismail" (.ok "KEY") "2026-10-11T00:00:00Z"
        (fun _ => none)).1.get? 0).map Submission.triggers =
      some ["2026-10-11T00:00:00Z"] :=
  triggers_spec.2.2 "ubuntu" "ismail" "KEY" "2026-10-11T00:00:00Z" (Or.inr (Or.inl rfl))
